import Mathlib

/-!
Verification model of packages/angular_devkit/core/src/experimental/jobs/create-job-handler.ts.

The file shallowly embeds the job handler protocol engine produced by
createJobHandler as an explicit state machine: the rx Subscriber passed to
the Observable constructor becomes a guarded output list plus a terminal
marker, the per-run channel Subjects become explicit subject records, and
the inbound bus, the job body result (scalar, promise, observable) and the
channel traffic become an explicit event trace folded over a step function.
The decorators createJobFactory and createLoggerJob are modelled at the
handler level, with the rx tap operator modelled explicitly.
-/

namespace Jobs

/-- Model of ChannelAlreadyExistException: raised by createChannel when the
name is currently open. It carries the offending name. -/
structure ChannelAlreadyExistException where
  name : String
  deriving DecidableEq

/-- Inbound messages of the protocol (JobInboundMessageKind: Ping, Stop, Input).
Ping ids are modelled as naturals, input values by the payload type V. -/
inductive JobInboundMessage (V : Type) where
  | ping (id : Nat)
  | stop
  | input (value : V)
  deriving DecidableEq

/-- Outbound messages of the protocol (JobOutboundMessageKind). Every variant
carries the description of the job, as in the source. -/
inductive JobOutboundMessage (D V : Type) where
  | start (description : D)
  | pong (description : D) (id : Nat)
  | log (description : D) (entry : V)
  | output (description : D) (value : V)
  | channelMessage (description : D) (name : String) (message : V)
  | channelError (description : D) (name : String) (err : V)
  | channelComplete (description : D) (name : String)
  | endMsg (description : D)
  deriving DecidableEq

/-- Terminal notification of the outbound rx stream: subject.complete() or
subject.error(e). -/
inductive Terminal (V : Type) where
  | complete
  | error (e : V)
  deriving DecidableEq

/-- One channel Subject created by createChannel. The name is the name
captured by the subscriber closures at creation time; stopped is the
Subject state after complete() or error() was called on it. -/
structure ChannelSubject where
  id : Nat
  name : String
  stopped : Bool
  deriving DecidableEq

/-- The dynamic shape of the value returned by the job body fn, dispatched
by isPromise / isObservable in the source. -/
inductive JobResult (V : Type) where
  | scalar (value : V)
  | promise
  | observable
  deriving DecidableEq

/-- Events that drive one job run: inbound messages from the inbound bus,
the settlement of a promise result, the notifications of an observable
result, calls the job body makes on a channel handle, createChannel calls
and logger entries. -/
inductive RunEvent (V : Type) where
  | inbound (message : JobInboundMessage V)
  | promiseResolve (value : V)
  | promiseReject (err : V)
  | streamNext (value : V)
  | streamError (err : V)
  | streamComplete
  | chanCreate (name : String)
  | chanNext (chan : Nat) (message : V)
  | chanError (chan : Nat) (err : V)
  | chanComplete (chan : Nat)
  | logEntry (entry : V)
  deriving DecidableEq

/-- The observable state of one job run. out and term model the rx
Subscriber of the returned Observable (emitted messages, and the terminal
notification once complete or error was called). subActive models the
Subscription to an observable result; promisePending models a not yet
settled promise result; channels models the channels Map (name to subject
id, in insertion order); subjects records every channel Subject created in
the run; inputs models the values forwarded into the inputChannel Subject. -/
@[ext] structure JobState (D V : Type) where
  description : D
  out : List (JobOutboundMessage D V)
  term : Option (Terminal V)
  subActive : Bool
  promisePending : Bool
  channels : List (String × Nat)
  subjects : List ChannelSubject
  nextId : Nat
  inputs : List V
  deriving DecidableEq

variable {D V : Type}

/-- subject.next(m) on the primary Subscriber: rx drops the message once the
subscriber is stopped. -/
def mainNext (s : JobState D V) (m : JobOutboundMessage D V) : JobState D V :=
  if s.term.isNone then { s with out := s.out ++ [m] } else s

/-- subject.complete() on the primary Subscriber: a no-op once stopped. -/
def mainComplete (s : JobState D V) : JobState D V :=
  if s.term.isNone then { s with term := some Terminal.complete } else s

/-- subject.error(e) on the primary Subscriber: a no-op once stopped. -/
def mainError (s : JobState D V) (e : V) : JobState D V :=
  if s.term.isNone then { s with term := some (Terminal.error e) } else s

/-- Look up a channel Subject by its id. -/
def findSubject (s : JobState D V) (i : Nat) : Option ChannelSubject :=
  s.subjects.find? (fun c => c.id == i)

/-- Mark a channel Subject as stopped. -/
def stopSubject (s : JobState D V) (i : Nat) : JobState D V :=
  { s with
    subjects := s.subjects.map
      (fun c => if c.id == i then { c with stopped := true } else c) }

/-- channels.delete(name) on the channels Map. -/
def deleteChannel (s : JobState D V) (name : String) : JobState D V :=
  { s with channels := s.channels.eraseP (fun p => p.1 == name) }

/-- channelSubject.next(message): the subscriber installed by createChannel
forwards it as a ChannelMessage on the primary stream. A stopped Subject
drops the call. -/
def subjectNext (s : JobState D V) (i : Nat) (m : V) : JobState D V :=
  match findSubject s i with
  | none => s
  | some c =>
    if c.stopped then s
    else mainNext s (JobOutboundMessage.channelMessage s.description c.name m)

/-- channelSubject.error(e): forwards a ChannelError on the primary stream
and deletes the name from the channels Map, so the name can be reopened. -/
def subjectError (s : JobState D V) (i : Nat) (e : V) : JobState D V :=
  match findSubject s i with
  | none => s
  | some c =>
    if c.stopped then s
    else
      deleteChannel
        (mainNext (stopSubject s i)
          (JobOutboundMessage.channelError s.description c.name e)) c.name

/-- channelSubject.complete(): forwards a ChannelComplete on the primary
stream and deletes the name from the channels Map. -/
def subjectComplete (s : JobState D V) (i : Nat) : JobState D V :=
  match findSubject s i with
  | none => s
  | some c =>
    if c.stopped then s
    else
      deleteChannel
        (mainNext (stopSubject s i)
          (JobOutboundMessage.channelComplete s.description c.name)) c.name

/-- createChannel(name) from the augmented context: fails with
ChannelAlreadyExistException when the name is currently open, otherwise
registers a fresh Subject under the name and returns its handle id. The
call itself emits nothing on the primary stream. -/
def createChannel (s : JobState D V) (name : String) :
    Except ChannelAlreadyExistException (JobState D V × Nat) :=
  if s.channels.any (fun p => p.1 == name) then
    Except.error ⟨name⟩
  else
    Except.ok
      ({ s with
          subjects := s.subjects ++ [⟨s.nextId, name, false⟩],
          channels := s.channels ++ [(name, s.nextId)],
          nextId := s.nextId + 1 }, s.nextId)

/-- channels.forEach(x => x.complete()): complete every Subject of the given
map entries in order. Each completion deletes only its own entry, so
folding over the snapshot agrees with the live Map iteration of the
source. -/
def completeAll (s : JobState D V) (l : List (String × Nat)) : JobState D V :=
  l.foldl (fun acc p => subjectComplete acc p.2) s

/-- The Stop branch of the inbound bus subscription: unsubscribe the result
subscription if any, emit End, complete the primary stream, then close all
channels (in the source this order is: unsubscribe, next End, complete,
channels.forEach complete). -/
def handleStop (s : JobState D V) : JobState D V :=
  completeAll
    (mainComplete
      (mainNext { s with subActive := false }
        (JobOutboundMessage.endMsg s.description)))
    (mainComplete
      (mainNext { s with subActive := false }
        (JobOutboundMessage.endMsg s.description))).channels

/-- One step of the protocol engine: dispatch one run event exactly as the
corresponding callback of the source does. -/
def step (s : JobState D V) (e : RunEvent V) : JobState D V :=
  match e with
  | RunEvent.inbound (JobInboundMessage.ping i) =>
    mainNext s (JobOutboundMessage.pong s.description i)
  | RunEvent.inbound JobInboundMessage.stop => handleStop s
  | RunEvent.inbound (JobInboundMessage.input v) =>
    { s with inputs := s.inputs ++ [v] }
  | RunEvent.promiseResolve v =>
    if s.promisePending then
      mainComplete
        (mainNext
          (mainNext { s with promisePending := false }
            (JobOutboundMessage.output s.description v))
          (JobOutboundMessage.endMsg s.description))
    else s
  | RunEvent.promiseReject e =>
    if s.promisePending then mainError { s with promisePending := false } e else s
  | RunEvent.streamNext v =>
    if s.subActive then mainNext s (JobOutboundMessage.output s.description v) else s
  | RunEvent.streamError e =>
    if s.subActive then mainError { s with subActive := false } e else s
  | RunEvent.streamComplete =>
    if s.subActive then
      mainComplete
        (mainNext { s with subActive := false }
          (JobOutboundMessage.endMsg s.description))
    else s
  | RunEvent.chanCreate name =>
    match createChannel s name with
    | Except.ok (s1, _) => s1
    | Except.error _ => s
  | RunEvent.chanNext i m => subjectNext s i m
  | RunEvent.chanError i e => subjectError s i e
  | RunEvent.chanComplete i => subjectComplete s i
  | RunEvent.logEntry e => mainNext s (JobOutboundMessage.log s.description e)

/-- The state of a run before anything happened. -/
def initState (d : D) : JobState D V :=
  { description := d, out := [], term := none, subActive := false,
    promisePending := false, channels := [], subjects := [], nextId := 0,
    inputs := [] }

/-- A job body for the run model: the channel, log and createChannel calls
it performs synchronously while fn runs, and the shape of the value it
returns. -/
structure JobBody (V : Type) where
  actions : List (RunEvent V)
  result : JobResult V

/-- The result dispatch of the source: isPromise starts waiting for the
settlement, isObservable subscribes (making Stop able to unsubscribe), and
a scalar value reports Output then End synchronously and completes. -/
def dispatchResult (s : JobState D V) (r : JobResult V) : JobState D V :=
  match r with
  | JobResult.promise => { s with promisePending := true }
  | JobResult.observable => { s with subActive := true }
  | JobResult.scalar v =>
    mainComplete
      (mainNext (mainNext s (JobOutboundMessage.output s.description v))
        (JobOutboundMessage.endMsg s.description))

/-- Subscribing to the Observable returned by the handler: subscribe to the
inbound bus, install the logger, emit Start, run the job body and dispatch
on the shape of its result. -/
def runInit (d : D) (body : JobBody V) : JobState D V :=
  dispatchResult
    (body.actions.foldl step (mainNext (initState d) (JobOutboundMessage.start d)))
    body.result

/-- A full job run: initialization followed by the given event trace. -/
def runJob (d : D) (body : JobBody V) (events : List (RunEvent V)) : JobState D V :=
  events.foldl step (runInit d body)

/-- True exactly on Start messages. -/
def isStart (m : JobOutboundMessage D V) : Bool :=
  match m with
  | JobOutboundMessage.start _ => true
  | _ => false

/-- True exactly on End messages. -/
def isEnd (m : JobOutboundMessage D V) : Bool :=
  match m with
  | JobOutboundMessage.endMsg _ => true
  | _ => false

/-- Number of End messages in an outbound list. -/
def endCount (l : List (JobOutboundMessage D V)) : Nat :=
  l.countP isEnd

/-- Number of Start messages in an outbound list. -/
def startCount (l : List (JobOutboundMessage D V)) : Nat :=
  l.countP isStart

/-- How many End messages a run in the given terminal state must have
emitted: one after a normal completion, none otherwise. -/
def termEnds (t : Option (Terminal V)) : Nat :=
  match t with
  | some Terminal.complete => 1
  | _ => 0

/-- A subject id is dead in a state when every Subject found under it is
stopped. -/
def deadAt (s : JobState D V) (i : Nat) : Prop :=
  ∀ c, findSubject s i = some c → c.stopped = true

/-- Log lines produced by createLoggerJob on its LoggerApi sink: one per
inbound message, one per outbound message, one per terminal error and one
on completion (the JSON formatting of the source is abstracted away). -/
inductive LogLine (D V : Type) where
  | inputLine (message : JobInboundMessage V)
  | messageLine (message : JobOutboundMessage D V)
  | errorLine (err : V)
  | completedLine
  deriving DecidableEq

/-- The rx tap operator on the message part of a stream: forwards every
message unchanged and records one log line per message as a side effect. -/
def tapNotifs {M L : Type} (ms : List M) (f : M → L) : List M × List L :=
  ms.foldl (fun acc m => (acc.1 ++ [m], acc.2 ++ [f m])) ([], [])

/-- A job handler at the interface level: the function from argument,
description and run events to the outbound message sequence plus terminal
state, together with the jobDescription property that Object.assign puts
on the returned function. Partial job descriptions are modelled as
property lists. -/
structure JobHandlerModel (D V : Type) where
  run : V → D → List (RunEvent V) → List (JobOutboundMessage D V) × Option (Terminal V)
  jobDescription : List (String × String)

/-- The handler returned by createJobHandler(fn, options): its run is the
protocol engine of this file applied to the body fn produces for the
argument, and Object.assign sets jobDescription to options. -/
def createJobHandlerModel (fn : V → JobBody V) (options : List (String × String)) :
    JobHandlerModel D V :=
  { run := fun a d tr =>
      let s := runJob d (fn a) tr
      (s.out, s.term),
    jobDescription := options }

/-- The options default of createJobHandler: the empty object. -/
def emptyOptions : List (String × String) := []

/-- createJobHandler(fn) with the options parameter omitted. -/
def createJobHandlerModelNoOptions (fn : V → JobBody V) : JobHandlerModel D V :=
  createJobHandlerModel fn emptyOptions

/-- The handler returned by createJobFactory(loader, options): resolves the
loader once and delegates the whole run to the resolved handler
(from(loader()) piped through switchMap); Object.assign sets
jobDescription to options. -/
def createJobFactoryModel (loader : Unit → JobHandlerModel D V)
    (options : List (String × String)) : JobHandlerModel D V :=
  { run := fun a d tr => (loader ()).run a d tr,
    jobDescription := options }

/-- The handler returned by createLoggerJob(job, logger): pipes the outbound
stream of the wrapped job through tap, and Object.assign copies every own
property of the wrapped job onto the new handler, in particular its
jobDescription. -/
def createLoggerJobModel (job : JobHandlerModel D V) : JobHandlerModel D V :=
  { run := fun a d tr =>
      let r := job.run a d tr
      ((tapNotifs r.1 LogLine.messageLine).1, r.2),
    jobDescription := job.jobDescription }

/-- The log lines createLoggerJob writes to its sink for one run: every
inbound message, then every outbound message, then the terminal
notification. -/
def createLoggerJobLogs (job : JobHandlerModel D V) (a : V) (d : D)
    (tr : List (RunEvent V)) (inbound : List (JobInboundMessage V)) :
    List (LogLine D V) :=
  inbound.map LogLine.inputLine ++
    (tapNotifs (job.run a d tr).1 LogLine.messageLine).2 ++
    (match (job.run a d tr).2 with
     | some (Terminal.error e) => [LogLine.errorLine e]
     | some Terminal.complete => [LogLine.completedLine]
     | none => [])

/-! Basic field preservation lemmas about the primitive operations. -/

@[simp] theorem mainNext_term (s : JobState D V) (m : JobOutboundMessage D V) :
    (mainNext s m).term = s.term := by
  unfold mainNext; split <;> rfl

@[simp] theorem mainNext_description (s : JobState D V) (m : JobOutboundMessage D V) :
    (mainNext s m).description = s.description := by
  unfold mainNext; split <;> rfl

@[simp] theorem mainNext_subjects (s : JobState D V) (m : JobOutboundMessage D V) :
    (mainNext s m).subjects = s.subjects := by
  unfold mainNext; split <;> rfl

@[simp] theorem mainNext_channels (s : JobState D V) (m : JobOutboundMessage D V) :
    (mainNext s m).channels = s.channels := by
  unfold mainNext; split <;> rfl

@[simp] theorem mainNext_subActive (s : JobState D V) (m : JobOutboundMessage D V) :
    (mainNext s m).subActive = s.subActive := by
  unfold mainNext; split <;> rfl

@[simp] theorem mainNext_promisePending (s : JobState D V) (m : JobOutboundMessage D V) :
    (mainNext s m).promisePending = s.promisePending := by
  unfold mainNext; split <;> rfl

@[simp] theorem mainComplete_out (s : JobState D V) :
    (mainComplete s).out = s.out := by
  unfold mainComplete; split <;> rfl

@[simp] theorem mainComplete_description (s : JobState D V) :
    (mainComplete s).description = s.description := by
  unfold mainComplete; split <;> rfl

@[simp] theorem mainComplete_subjects (s : JobState D V) :
    (mainComplete s).subjects = s.subjects := by
  unfold mainComplete; split <;> rfl

@[simp] theorem mainComplete_channels (s : JobState D V) :
    (mainComplete s).channels = s.channels := by
  unfold mainComplete; split <;> rfl

@[simp] theorem mainComplete_subActive (s : JobState D V) :
    (mainComplete s).subActive = s.subActive := by
  unfold mainComplete; split <;> rfl

@[simp] theorem mainError_out (s : JobState D V) (e : V) :
    (mainError s e).out = s.out := by
  unfold mainError; split <;> rfl

@[simp] theorem mainError_description (s : JobState D V) (e : V) :
    (mainError s e).description = s.description := by
  unfold mainError; split <;> rfl

@[simp] theorem stopSubject_out (s : JobState D V) (i : Nat) :
    (stopSubject s i).out = s.out := rfl

@[simp] theorem stopSubject_term (s : JobState D V) (i : Nat) :
    (stopSubject s i).term = s.term := rfl

@[simp] theorem stopSubject_description (s : JobState D V) (i : Nat) :
    (stopSubject s i).description = s.description := rfl

@[simp] theorem deleteChannel_out (s : JobState D V) (n : String) :
    (deleteChannel s n).out = s.out := rfl

@[simp] theorem deleteChannel_term (s : JobState D V) (n : String) :
    (deleteChannel s n).term = s.term := rfl

@[simp] theorem deleteChannel_description (s : JobState D V) (n : String) :
    (deleteChannel s n).description = s.description := rfl

@[simp] theorem deleteChannel_subjects (s : JobState D V) (n : String) :
    (deleteChannel s n).subjects = s.subjects := rfl

@[simp] theorem stopSubject_subActive (s : JobState D V) (i : Nat) :
    (stopSubject s i).subActive = s.subActive := rfl

@[simp] theorem deleteChannel_subActive (s : JobState D V) (n : String) :
    (deleteChannel s n).subActive = s.subActive := rfl

@[simp] theorem stopSubject_promisePending (s : JobState D V) (i : Nat) :
    (stopSubject s i).promisePending = s.promisePending := rfl

@[simp] theorem deleteChannel_promisePending (s : JobState D V) (n : String) :
    (deleteChannel s n).promisePending = s.promisePending := rfl

@[simp] theorem subjectNext_term (s : JobState D V) (i : Nat) (m : V) :
    (subjectNext s i m).term = s.term := by
  unfold subjectNext
  cases findSubject s i with
  | none => rfl
  | some c => dsimp only; split <;> simp

@[simp] theorem subjectNext_description (s : JobState D V) (i : Nat) (m : V) :
    (subjectNext s i m).description = s.description := by
  unfold subjectNext
  cases findSubject s i with
  | none => rfl
  | some c => dsimp only; split <;> simp

@[simp] theorem subjectNext_subActive (s : JobState D V) (i : Nat) (m : V) :
    (subjectNext s i m).subActive = s.subActive := by
  unfold subjectNext
  cases findSubject s i with
  | none => rfl
  | some c => dsimp only; split <;> simp

@[simp] theorem subjectError_term (s : JobState D V) (i : Nat) (e : V) :
    (subjectError s i e).term = s.term := by
  unfold subjectError
  cases findSubject s i with
  | none => rfl
  | some c => dsimp only; split <;> simp

@[simp] theorem subjectError_description (s : JobState D V) (i : Nat) (e : V) :
    (subjectError s i e).description = s.description := by
  unfold subjectError
  cases findSubject s i with
  | none => rfl
  | some c => dsimp only; split <;> simp

@[simp] theorem subjectComplete_term (s : JobState D V) (i : Nat) :
    (subjectComplete s i).term = s.term := by
  unfold subjectComplete
  cases findSubject s i with
  | none => rfl
  | some c => dsimp only; split <;> simp

@[simp] theorem subjectComplete_description (s : JobState D V) (i : Nat) :
    (subjectComplete s i).description = s.description := by
  unfold subjectComplete
  cases findSubject s i with
  | none => rfl
  | some c => dsimp only; split <;> simp

@[simp] theorem subjectComplete_subActive (s : JobState D V) (i : Nat) :
    (subjectComplete s i).subActive = s.subActive := by
  unfold subjectComplete
  cases findSubject s i with
  | none => rfl
  | some c => dsimp only; split <;> simp

@[simp] theorem completeAll_term (s : JobState D V) (l : List (String × Nat)) :
    (completeAll s l).term = s.term := by
  induction l generalizing s with
  | nil => rfl
  | cons q tl ih => simpa [completeAll] using (ih (subjectComplete s q.2)).trans (by simp)

@[simp] theorem completeAll_description (s : JobState D V) (l : List (String × Nat)) :
    (completeAll s l).description = s.description := by
  induction l generalizing s with
  | nil => rfl
  | cons q tl ih => simpa [completeAll] using (ih (subjectComplete s q.2)).trans (by simp)

@[simp] theorem completeAll_subActive (s : JobState D V) (l : List (String × Nat)) :
    (completeAll s l).subActive = s.subActive := by
  induction l generalizing s with
  | nil => rfl
  | cons q tl ih => simpa [completeAll] using (ih (subjectComplete s q.2)).trans (by simp)

/-! Once the primary Subscriber is stopped, nothing changes the emitted
output or the terminal state any more. -/

theorem mainNext_frozen (s : JobState D V) (m : JobOutboundMessage D V)
    (h : s.term.isSome) : mainNext s m = s := by
  cases ht : s.term with
  | none => rw [ht] at h; simp at h
  | some t => simp [mainNext, ht]

theorem mainComplete_frozen (s : JobState D V) (h : s.term.isSome) :
    mainComplete s = s := by
  cases ht : s.term with
  | none => rw [ht] at h; simp at h
  | some t => simp [mainComplete, ht]

theorem mainError_frozen (s : JobState D V) (e : V) (h : s.term.isSome) :
    mainError s e = s := by
  cases ht : s.term with
  | none => rw [ht] at h; simp at h
  | some t => simp [mainError, ht]

theorem subjectNext_out_frozen (s : JobState D V) (i : Nat) (m : V)
    (h : s.term.isSome) : (subjectNext s i m).out = s.out := by
  unfold subjectNext
  cases findSubject s i with
  | none => rfl
  | some c =>
    dsimp only
    split
    · rfl
    · rw [mainNext_frozen _ _ h]

theorem subjectError_out_frozen (s : JobState D V) (i : Nat) (e : V)
    (h : s.term.isSome) : (subjectError s i e).out = s.out := by
  unfold subjectError
  cases findSubject s i with
  | none => rfl
  | some c =>
    dsimp only
    split
    · rfl
    · simp [mainNext_frozen _ _ (by simpa using h : (stopSubject s i).term.isSome)]

theorem subjectComplete_out_frozen (s : JobState D V) (i : Nat)
    (h : s.term.isSome) : (subjectComplete s i).out = s.out := by
  unfold subjectComplete
  cases findSubject s i with
  | none => rfl
  | some c =>
    dsimp only
    split
    · rfl
    · simp [mainNext_frozen _ _ (by simpa using h : (stopSubject s i).term.isSome)]

theorem completeAll_out_frozen (s : JobState D V) (l : List (String × Nat))
    (h : s.term.isSome) : (completeAll s l).out = s.out := by
  induction l generalizing s with
  | nil => rfl
  | cons q tl ih =>
    have h2 : (subjectComplete s q.2).term.isSome := by simpa using h
    calc (completeAll s (q :: tl)).out
        = (completeAll (subjectComplete s q.2) tl).out := rfl
      _ = (subjectComplete s q.2).out := ih _ h2
      _ = s.out := subjectComplete_out_frozen s q.2 h

theorem step_frozen (s : JobState D V) (e : RunEvent V) (h : s.term.isSome) :
    (step s e).out = s.out ∧ (step s e).term = s.term := by
  cases e with
  | inbound msg =>
    cases msg with
    | ping i => simp [step, mainNext_frozen _ _ h]
    | stop =>
      have h1 : ({ s with subActive := false } : JobState D V).term.isSome := h
      simp only [step, handleStop]
      rw [mainNext_frozen _ _ h1, mainComplete_frozen _ h1]
      exact ⟨completeAll_out_frozen _ _ h1, by simp⟩
    | input v => exact ⟨rfl, rfl⟩
  | promiseResolve v =>
    simp only [step]
    split
    · have h1 : ({ s with promisePending := false } : JobState D V).term.isSome := h
      rw [mainNext_frozen _ _ h1]
      have h2 :
          (mainNext ({ s with promisePending := false } : JobState D V)
            (JobOutboundMessage.output s.description v)).term.isSome := by
        rw [mainNext_frozen _ _ h1]; exact h1
      rw [mainNext_frozen _ _ h1, mainComplete_frozen _ h1]
      exact ⟨rfl, rfl⟩
    · exact ⟨rfl, rfl⟩
  | promiseReject e =>
    simp only [step]
    split
    · have h1 : ({ s with promisePending := false } : JobState D V).term.isSome := h
      rw [mainError_frozen _ _ h1]
      exact ⟨rfl, rfl⟩
    · exact ⟨rfl, rfl⟩
  | streamNext v =>
    simp only [step]
    split
    · rw [mainNext_frozen _ _ h]; exact ⟨rfl, rfl⟩
    · exact ⟨rfl, rfl⟩
  | streamError e =>
    simp only [step]
    split
    · have h1 : ({ s with subActive := false } : JobState D V).term.isSome := h
      rw [mainError_frozen _ _ h1]
      exact ⟨rfl, rfl⟩
    · exact ⟨rfl, rfl⟩
  | streamComplete =>
    simp only [step]
    split
    · have h1 : ({ s with subActive := false } : JobState D V).term.isSome := h
      rw [mainNext_frozen _ _ h1, mainComplete_frozen _ h1]
      exact ⟨rfl, rfl⟩
    · exact ⟨rfl, rfl⟩
  | chanCreate name =>
    cases hc : s.channels.any (fun p => p.1 == name) with
    | true => simp [step, createChannel, hc]
    | false => simp [step, createChannel, hc]
  | chanNext i m => exact ⟨subjectNext_out_frozen s i m h, by simp [step]⟩
  | chanError i e => exact ⟨subjectError_out_frozen s i e h, by simp [step]⟩
  | chanComplete i => exact ⟨subjectComplete_out_frozen s i h, by simp [step]⟩
  | logEntry e => simp [step, mainNext_frozen _ _ h]

theorem foldl_frozen (l : List (RunEvent V)) (s : JobState D V)
    (h : s.term.isSome) :
    (l.foldl step s).out = s.out ∧ (l.foldl step s).term = s.term := by
  induction l generalizing s with
  | nil => exact ⟨rfl, rfl⟩
  | cons e tl ih =>
    have hs := step_frozen s e h
    have h2 : (step s e).term.isSome := by rw [hs.2]; exact h
    have := ih (step s e) h2
    exact ⟨this.1.trans hs.1, this.2.trans hs.2⟩

/-! The chanCreate step never touches the primary Subscriber. -/

@[simp] theorem step_chanCreate_out (s : JobState D V) (name : String) :
    (step s (RunEvent.chanCreate name)).out = s.out := by
  cases hc : s.channels.any (fun p => p.1 == name) with
  | true => simp [step, createChannel, hc]
  | false => simp [step, createChannel, hc]

@[simp] theorem step_chanCreate_term (s : JobState D V) (name : String) :
    (step s (RunEvent.chanCreate name)).term = s.term := by
  cases hc : s.channels.any (fun p => p.1 == name) with
  | true => simp [step, createChannel, hc]
  | false => simp [step, createChannel, hc]

@[simp] theorem step_chanCreate_description (s : JobState D V) (name : String) :
    (step s (RunEvent.chanCreate name)).description = s.description := by
  cases hc : s.channels.any (fun p => p.1 == name) with
  | true => simp [step, createChannel, hc]
  | false => simp [step, createChannel, hc]

/-! The description carried by the run state never changes. -/

@[simp] theorem handleStop_description (s : JobState D V) :
    (handleStop s).description = s.description := by
  simp [handleStop]

@[simp] theorem step_description (s : JobState D V) (e : RunEvent V) :
    (step s e).description = s.description := by
  cases e with
  | inbound msg =>
    cases msg with
    | ping i => simp [step]
    | stop => simp [step]
    | input v => rfl
  | promiseResolve v => simp only [step]; split <;> simp
  | promiseReject e => simp only [step]; split <;> simp
  | streamNext v => simp only [step]; split <;> simp
  | streamError e => simp only [step]; split <;> simp
  | streamComplete => simp only [step]; split <;> simp
  | chanCreate name => simp
  | chanNext i m => simp [step]
  | chanError i e => simp [step]
  | chanComplete i => simp [step]
  | logEntry e => simp [step]

@[simp] theorem foldl_description (l : List (RunEvent V)) (s : JobState D V) :
    (l.foldl step s).description = s.description := by
  induction l generalizing s with
  | nil => rfl
  | cons e tl ih => simpa [List.foldl_cons] using (ih (step s e)).trans (by simp)

@[simp] theorem dispatchResult_description (s : JobState D V) (r : JobResult V) :
    (dispatchResult s r).description = s.description := by
  cases r <;> simp [dispatchResult]

@[simp] theorem runJob_description (d : D) (b : JobBody V) (tr : List (RunEvent V)) :
    (runJob d b tr).description = d := by
  simp [runJob, runInit, initState]

/-! Every step only appends to the outbound list, and never appends a
Start message. -/

theorem startCount_append (l1 l2 : List (JobOutboundMessage D V)) :
    startCount (l1 ++ l2) = startCount l1 + startCount l2 := by
  simp [startCount, List.countP_append]

theorem mainNext_out_extends (s : JobState D V) (m : JobOutboundMessage D V)
    (h : isStart m = false) :
    ∃ t, (mainNext s m).out = s.out ++ t ∧ startCount t = 0 := by
  unfold mainNext
  split
  · exact ⟨[m], rfl, by simp [startCount, List.countP_cons, h]⟩
  · exact ⟨[], by simp, rfl⟩

theorem subjectNext_out_extends (s : JobState D V) (i : Nat) (m : V) :
    ∃ t, (subjectNext s i m).out = s.out ++ t ∧ startCount t = 0 := by
  unfold subjectNext
  cases findSubject s i with
  | none => exact ⟨[], by simp, rfl⟩
  | some c =>
    dsimp only
    split
    · exact ⟨[], by simp, rfl⟩
    · exact mainNext_out_extends s _ rfl

theorem subjectError_out_extends (s : JobState D V) (i : Nat) (e : V) :
    ∃ t, (subjectError s i e).out = s.out ++ t ∧ startCount t = 0 := by
  unfold subjectError
  cases findSubject s i with
  | none => exact ⟨[], by simp, rfl⟩
  | some c =>
    dsimp only
    split
    · exact ⟨[], by simp, rfl⟩
    · obtain ⟨t, h1, h2⟩ := mainNext_out_extends (stopSubject s i)
        (JobOutboundMessage.channelError s.description c.name e) rfl
      exact ⟨t, by simpa using h1, h2⟩

theorem subjectComplete_out_extends (s : JobState D V) (i : Nat) :
    ∃ t, (subjectComplete s i).out = s.out ++ t ∧ startCount t = 0 := by
  unfold subjectComplete
  cases findSubject s i with
  | none => exact ⟨[], by simp, rfl⟩
  | some c =>
    dsimp only
    split
    · exact ⟨[], by simp, rfl⟩
    · obtain ⟨t, h1, h2⟩ := mainNext_out_extends (stopSubject s i)
        (JobOutboundMessage.channelComplete s.description c.name) rfl
      exact ⟨t, by simpa using h1, h2⟩

theorem completeAll_out_extends (l : List (String × Nat)) (s : JobState D V) :
    ∃ t, (completeAll s l).out = s.out ++ t ∧ startCount t = 0 := by
  induction l generalizing s with
  | nil => exact ⟨[], by simp [completeAll], rfl⟩
  | cons q tl ih =>
    obtain ⟨t1, h1, h2⟩ := subjectComplete_out_extends s q.2
    obtain ⟨t2, h3, h4⟩ := ih (subjectComplete s q.2)
    refine ⟨t1 ++ t2, ?_, ?_⟩
    · simp only [completeAll, List.foldl_cons] at h3 ⊢
      rw [h3, h1, List.append_assoc]
    · simp [startCount_append, h2, h4]

theorem step_out_extends (s : JobState D V) (e : RunEvent V) :
    ∃ t, (step s e).out = s.out ++ t ∧ startCount t = 0 := by
  cases e with
  | inbound msg =>
    cases msg with
    | ping i => exact mainNext_out_extends s _ rfl
    | stop =>
      obtain ⟨t1, h1, h2⟩ := mainNext_out_extends
        ({ s with subActive := false } : JobState D V)
        (JobOutboundMessage.endMsg s.description) rfl
      obtain ⟨t2, h3, h4⟩ := completeAll_out_extends
        (mainComplete (mainNext ({ s with subActive := false } : JobState D V)
          (JobOutboundMessage.endMsg s.description))).channels
        (mainComplete (mainNext ({ s with subActive := false } : JobState D V)
          (JobOutboundMessage.endMsg s.description)))
      refine ⟨t1 ++ t2, ?_, by simp [startCount_append, h2, h4]⟩
      show (handleStop s).out = s.out ++ (t1 ++ t2)
      simp only [handleStop]
      rw [h3]
      simp only [mainComplete_out]
      rw [h1, List.append_assoc]
    | input v => exact ⟨[], by simp [step], rfl⟩
  | promiseResolve v =>
    simp only [step]
    split
    · obtain ⟨t1, h1, h2⟩ := mainNext_out_extends
        ({ s with promisePending := false } : JobState D V)
        (JobOutboundMessage.output s.description v) rfl
      obtain ⟨t2, h3, h4⟩ := mainNext_out_extends
        (mainNext ({ s with promisePending := false } : JobState D V)
          (JobOutboundMessage.output s.description v))
        (JobOutboundMessage.endMsg s.description) rfl
      refine ⟨t1 ++ t2, ?_, by simp [startCount_append, h2, h4]⟩
      simp only [mainComplete_out]
      rw [h3, h1, List.append_assoc]
    · exact ⟨[], by simp, rfl⟩
  | promiseReject e =>
    simp only [step]
    split
    · exact ⟨[], by simp, rfl⟩
    · exact ⟨[], by simp, rfl⟩
  | streamNext v =>
    simp only [step]
    split
    · exact mainNext_out_extends s _ rfl
    · exact ⟨[], by simp, rfl⟩
  | streamError e =>
    simp only [step]
    split
    · exact ⟨[], by simp, rfl⟩
    · exact ⟨[], by simp, rfl⟩
  | streamComplete =>
    simp only [step]
    split
    · obtain ⟨t1, h1, h2⟩ := mainNext_out_extends
        ({ s with subActive := false } : JobState D V)
        (JobOutboundMessage.endMsg s.description) rfl
      exact ⟨t1, by simpa using h1, h2⟩
    · exact ⟨[], by simp, rfl⟩
  | chanCreate name => exact ⟨[], by simp, rfl⟩
  | chanNext i m => exact subjectNext_out_extends s i m
  | chanError i e => exact subjectError_out_extends s i e
  | chanComplete i => exact subjectComplete_out_extends s i
  | logEntry e => exact mainNext_out_extends s _ rfl

theorem foldl_out_extends (l : List (RunEvent V)) (s : JobState D V) :
    ∃ t, (l.foldl step s).out = s.out ++ t ∧ startCount t = 0 := by
  induction l generalizing s with
  | nil => exact ⟨[], by simp, rfl⟩
  | cons e tl ih =>
    obtain ⟨t1, h1, h2⟩ := step_out_extends s e
    obtain ⟨t2, h3, h4⟩ := ih (step s e)
    refine ⟨t1 ++ t2, ?_, by simp [startCount_append, h2, h4]⟩
    simp only [List.foldl_cons]
    rw [h3, h1, List.append_assoc]

theorem dispatchResult_out_extends (s : JobState D V) (r : JobResult V) :
    ∃ t, (dispatchResult s r).out = s.out ++ t ∧ startCount t = 0 := by
  cases r with
  | scalar v =>
    obtain ⟨t1, h1, h2⟩ := mainNext_out_extends s
      (JobOutboundMessage.output s.description v) rfl
    obtain ⟨t2, h3, h4⟩ := mainNext_out_extends
      (mainNext s (JobOutboundMessage.output s.description v))
      (JobOutboundMessage.endMsg s.description) rfl
    refine ⟨t1 ++ t2, ?_, by simp [startCount_append, h2, h4]⟩
    simp only [dispatchResult, mainComplete_out]
    rw [h3, h1, List.append_assoc]
  | promise => exact ⟨[], by simp [dispatchResult], rfl⟩
  | observable => exact ⟨[], by simp [dispatchResult], rfl⟩

/-- In every run the Start message comes first and is never repeated. -/
theorem runJob_out_start (d : D) (b : JobBody V) (tr : List (RunEvent V)) :
    ∃ rest, (runJob d b tr).out = JobOutboundMessage.start d :: rest
      ∧ startCount rest = 0 := by
  have hinit : (mainNext (initState d) (JobOutboundMessage.start d) :
      JobState D V).out = [JobOutboundMessage.start d] := by
    simp [mainNext, initState]
  obtain ⟨t1, h1, h2⟩ := foldl_out_extends b.actions
    (mainNext (initState d) (JobOutboundMessage.start d))
  obtain ⟨t2, h3, h4⟩ := dispatchResult_out_extends
    (b.actions.foldl step (mainNext (initState d) (JobOutboundMessage.start d)))
    b.result
  obtain ⟨t3, h5, h6⟩ := foldl_out_extends tr (runInit d b)
  refine ⟨t1 ++ t2 ++ t3, ?_, ?_⟩
  · show (tr.foldl step (runInit d b)).out = _
    rw [h5]
    show (dispatchResult _ b.result).out ++ t3 = _
    rw [h3, h1, hinit]
    simp [List.append_assoc]
  · simp [startCount_append, h2, h4, h6]

/-! An End message is emitted exactly when the primary stream was completed
normally: the count of End messages in the outbound list always agrees
with the terminal state. -/

theorem endCount_append (l1 l2 : List (JobOutboundMessage D V)) :
    endCount (l1 ++ l2) = endCount l1 + endCount l2 := by
  simp [endCount, List.countP_append]

theorem endCount_singleton (m : JobOutboundMessage D V) (h : isEnd m = false) :
    endCount [m] = 0 := by
  simp [endCount, List.countP_cons, h]

theorem endCount_end_singleton (d0 : D) :
    endCount [(JobOutboundMessage.endMsg d0 : JobOutboundMessage D V)] = 1 := by
  simp [endCount, List.countP_cons, isEnd]

theorem mainNext_endCount (s : JobState D V) (m : JobOutboundMessage D V)
    (h : isEnd m = false) :
    endCount (mainNext s m).out = endCount s.out := by
  unfold mainNext
  split
  · simp [endCount_append, endCount, List.countP_cons, h]
  · rfl

theorem subjectNext_endCount (s : JobState D V) (i : Nat) (m : V) :
    endCount (subjectNext s i m).out = endCount s.out := by
  unfold subjectNext
  cases findSubject s i with
  | none => rfl
  | some c =>
    dsimp only
    split
    · rfl
    · exact mainNext_endCount s _ rfl

theorem subjectError_endCount (s : JobState D V) (i : Nat) (e : V) :
    endCount (subjectError s i e).out = endCount s.out := by
  unfold subjectError
  cases findSubject s i with
  | none => rfl
  | some c =>
    dsimp only
    split
    · rfl
    · simpa using mainNext_endCount (stopSubject s i)
        (JobOutboundMessage.channelError s.description c.name e) rfl

theorem subjectComplete_endCount (s : JobState D V) (i : Nat) :
    endCount (subjectComplete s i).out = endCount s.out := by
  unfold subjectComplete
  cases findSubject s i with
  | none => rfl
  | some c =>
    dsimp only
    split
    · rfl
    · simpa using mainNext_endCount (stopSubject s i)
        (JobOutboundMessage.channelComplete s.description c.name) rfl

/-! Operations on a still open primary Subscriber. -/

theorem mainNext_out_open (s : JobState D V) (m : JobOutboundMessage D V)
    (h : s.term = none) : (mainNext s m).out = s.out ++ [m] := by
  simp [mainNext, h]

theorem mainComplete_term_open (s : JobState D V) (h : s.term = none) :
    (mainComplete s).term = some Terminal.complete := by
  simp [mainComplete, h]

theorem mainError_term_open (s : JobState D V) (e : V) (h : s.term = none) :
    (mainError s e).term = some (Terminal.error e) := by
  simp [mainError, h]

theorem endComplete_open (s : JobState D V) (d0 : D) (h : s.term = none) :
    (mainComplete (mainNext s (JobOutboundMessage.endMsg d0))).out
        = s.out ++ [JobOutboundMessage.endMsg d0]
    ∧ (mainComplete (mainNext s (JobOutboundMessage.endMsg d0))).term
        = some Terminal.complete := by
  have h2 : (mainNext s (JobOutboundMessage.endMsg d0)).term = none := by
    rw [mainNext_term]; exact h
  exact ⟨by rw [mainComplete_out, mainNext_out_open s _ h],
    mainComplete_term_open _ h2⟩

theorem step_endInv (s : JobState D V) (e : RunEvent V)
    (h : endCount s.out = termEnds s.term) :
    endCount (step s e).out = termEnds (step s e).term := by
  cases ht : s.term with
  | some t =>
    obtain ⟨ho, htm⟩ := step_frozen s e (by simp [ht])
    rw [ho, htm]
    exact h
  | none =>
    have h0 : endCount s.out = 0 := by simpa [termEnds, ht] using h
    cases e with
    | inbound msg =>
      cases msg with
      | ping i =>
        have hp : isEnd (JobOutboundMessage.pong s.description i :
            JobOutboundMessage D V) = false := rfl
        simp [step, mainNext_endCount s _ hp, h0, ht, termEnds]
      | stop =>
        simp only [step, handleStop]
        have h1 : ({ s with subActive := false } : JobState D V).term = none := ht
        obtain ⟨ho, ht2⟩ := endComplete_open
          ({ s with subActive := false } : JobState D V) s.description h1
        have hsome : (mainComplete (mainNext ({ s with subActive := false } :
            JobState D V) (JobOutboundMessage.endMsg s.description))).term.isSome := by
          rw [ht2]; rfl
        rw [completeAll_out_frozen _ _ hsome, completeAll_term, ho, ht2,
          endCount_append, h0, endCount_end_singleton]
        rfl
      | input v => simpa [step, termEnds, ht] using h0
    | promiseResolve v =>
      simp only [step]
      split
      · have h1 : ({ s with promisePending := false } : JobState D V).term = none := ht
        have hA := mainNext_out_open ({ s with promisePending := false } : JobState D V)
          (JobOutboundMessage.output s.description v) h1
        have hAt : (mainNext ({ s with promisePending := false } : JobState D V)
            (JobOutboundMessage.output s.description v)).term = none := by
          rw [mainNext_term]; exact h1
        obtain ⟨ho, ht2⟩ := endComplete_open _ s.description hAt
        rw [ho, hA, ht2, endCount_append, endCount_append, h0,
          endCount_end_singleton,
          endCount_singleton (JobOutboundMessage.output s.description v) rfl]
        rfl
      · simpa [termEnds, ht] using h0
    | promiseReject e =>
      simp only [step]
      split
      · have h1 : ({ s with promisePending := false } : JobState D V).term = none := ht
        rw [mainError_out, mainError_term_open _ _ h1]
        simpa [termEnds] using h0
      · simpa [termEnds, ht] using h0
    | streamNext v =>
      simp only [step]
      split
      · have hp : isEnd (JobOutboundMessage.output s.description v :
            JobOutboundMessage D V) = false := rfl
        simp [mainNext_endCount s _ hp, h0, ht, termEnds]
      · simpa [termEnds, ht] using h0
    | streamError e =>
      simp only [step]
      split
      · have h1 : ({ s with subActive := false } : JobState D V).term = none := ht
        rw [mainError_out, mainError_term_open _ _ h1]
        simpa [termEnds] using h0
      · simpa [termEnds, ht] using h0
    | streamComplete =>
      simp only [step]
      split
      · have h1 : ({ s with subActive := false } : JobState D V).term = none := ht
        obtain ⟨ho, ht2⟩ := endComplete_open _ s.description h1
        rw [ho, ht2, endCount_append, h0, endCount_end_singleton]
        rfl
      · simpa [termEnds, ht] using h0
    | chanCreate name =>
      rw [show endCount (step s (RunEvent.chanCreate name)).out = endCount s.out from by
        rw [step_chanCreate_out]]
      rw [step_chanCreate_term, ht]
      exact h0.trans rfl
    | chanNext i m => simp [step, subjectNext_endCount, h0, ht, termEnds]
    | chanError i e => simp [step, subjectError_endCount, h0, ht, termEnds]
    | chanComplete i => simp [step, subjectComplete_endCount, h0, ht, termEnds]
    | logEntry e =>
      have hp : isEnd (JobOutboundMessage.log s.description e :
          JobOutboundMessage D V) = false := rfl
      simp [step, mainNext_endCount s _ hp, h0, ht, termEnds]

theorem foldl_endInv (l : List (RunEvent V)) (s : JobState D V)
    (h : endCount s.out = termEnds s.term) :
    endCount (l.foldl step s).out = termEnds (l.foldl step s).term := by
  induction l generalizing s with
  | nil => exact h
  | cons e tl ih => exact ih (step s e) (step_endInv s e h)

theorem dispatchResult_endInv (s : JobState D V) (r : JobResult V)
    (h : endCount s.out = termEnds s.term) :
    endCount (dispatchResult s r).out = termEnds (dispatchResult s r).term := by
  cases r with
  | promise => exact h
  | observable => exact h
  | scalar v =>
    cases ht : s.term with
    | some t =>
      have hsome : s.term.isSome := by simp [ht]
      simp only [dispatchResult]
      rw [mainNext_frozen _ _ hsome, mainNext_frozen _ _ hsome, mainComplete_frozen _ hsome]
      exact h
    | none =>
      have h0 : endCount s.out = 0 := by simpa [termEnds, ht] using h
      have hA := mainNext_out_open s (JobOutboundMessage.output s.description v) ht
      have hAt : (mainNext s (JobOutboundMessage.output s.description v)).term
          = none := by rw [mainNext_term]; exact ht
      obtain ⟨ho, ht2⟩ := endComplete_open _ s.description hAt
      simp only [dispatchResult]
      rw [ho, hA, ht2, endCount_append, endCount_append, h0,
        endCount_end_singleton,
        endCount_singleton (JobOutboundMessage.output s.description v) rfl]
      rfl

/-- In every reachable run state the number of emitted End messages is one
after a normal completion and zero otherwise. -/
theorem runJob_endInv (d : D) (b : JobBody V) (tr : List (RunEvent V)) :
    endCount (runJob d b tr).out = termEnds (runJob d b tr).term := by
  have hinit : endCount (mainNext (initState d) (JobOutboundMessage.start d) :
      JobState D V).out = termEnds (mainNext (initState d)
        (JobOutboundMessage.start d) : JobState D V).term := by
    simp [mainNext, initState, endCount, termEnds, List.countP_cons, isEnd]
  exact foldl_endInv tr _ (dispatchResult_endInv _ _ (foldl_endInv b.actions _ hinit))

/-! Behavior of an observable result before and after Stop. -/

theorem stream_nexts (vs : List V) (s : JobState D V) (h1 : s.term = none)
    (h2 : s.subActive = true) :
    (vs.map RunEvent.streamNext).foldl step s
      = { s with out := s.out ++ vs.map (JobOutboundMessage.output s.description) } := by
  induction vs generalizing s with
  | nil => ext <;> simp
  | cons v tl ih =>
    have hstep : step s (RunEvent.streamNext v)
        = { s with out := s.out ++ [JobOutboundMessage.output s.description v] } := by
      simp [step, h2, mainNext, h1]
    have h3 : ({ s with out := s.out ++ [JobOutboundMessage.output s.description v] } :
        JobState D V).term = none := h1
    have h4 : ({ s with out := s.out ++ [JobOutboundMessage.output s.description v] } :
        JobState D V).subActive = true := h2
    simp only [List.map_cons, List.foldl_cons, hstep]
    rw [ih _ h3 h4]
    ext <;> simp

theorem stream_nexts_inactive (vs : List V) (s : JobState D V)
    (h : s.subActive = false) :
    (vs.map RunEvent.streamNext).foldl step s = s := by
  induction vs with
  | nil => rfl
  | cons v tl ih =>
    have hstep : step s (RunEvent.streamNext v) = s := by simp [step, h]
    simp only [List.map_cons, List.foldl_cons, hstep]
    exact ih

/-! Channel subjects only ever become stopped; after Stop every channel
entry that is still registered is dead, which makes a second Stop a
no-op. -/

@[simp] theorem findSubject_mainNext (s : JobState D V) (m : JobOutboundMessage D V)
    (i : Nat) : findSubject (mainNext s m) i = findSubject s i := by
  simp [findSubject]

@[simp] theorem findSubject_mainComplete (s : JobState D V) (i : Nat) :
    findSubject (mainComplete s) i = findSubject s i := by
  simp [findSubject]

@[simp] theorem findSubject_deleteChannel (s : JobState D V) (n : String) (i : Nat) :
    findSubject (deleteChannel s n) i = findSubject s i := rfl

@[simp] theorem stopSubject_channels (s : JobState D V) (i : Nat) :
    (stopSubject s i).channels = s.channels := rfl

theorem comp_stop_pred (i j : Nat) :
    ((fun c => c.id == i) ∘ fun c =>
        if c.id == j then ({ c with stopped := true } : ChannelSubject) else c)
      = fun c : ChannelSubject => c.id == i := by
  funext c
  simp only [Function.comp_apply]
  split <;> rfl

theorem findSubject_stopSubject (s : JobState D V) (j i : Nat) :
    findSubject (stopSubject s j) i
      = (findSubject s i).map
          (fun c => if c.id == j then { c with stopped := true } else c) := by
  simp only [findSubject, stopSubject]
  rw [List.find?_map, comp_stop_pred]

theorem deadAt_mono_subjectComplete (s : JobState D V) (q i : Nat)
    (h : deadAt s i) : deadAt (subjectComplete s q) i := by
  unfold subjectComplete
  cases hf : findSubject s q with
  | none => exact h
  | some c =>
    dsimp only
    split
    · exact h
    · intro c2 hc2
      rw [findSubject_deleteChannel, findSubject_mainNext,
        findSubject_stopSubject] at hc2
      cases hfi : findSubject s i with
      | none => rw [hfi] at hc2; cases hc2
      | some c3 =>
        rw [hfi] at hc2
        have hc3 := h c3 hfi
        have : c2 = if c3.id == q then { c3 with stopped := true } else c3 :=
          (Option.some.injEq _ _).mp hc2.symm
        rw [this]
        split
        · rfl
        · exact hc3

theorem deadAt_subjectComplete_self (s : JobState D V) (q : Nat) :
    deadAt (subjectComplete s q) q := by
  unfold subjectComplete
  cases hf : findSubject s q with
  | none =>
    intro c2 hc2
    rw [hf] at hc2
    cases hc2
  | some c =>
    dsimp only
    split
    · intro c2 hc2
      rw [hf] at hc2
      cases hc2
      assumption
    · intro c2 hc2
      rw [findSubject_deleteChannel, findSubject_mainNext,
        findSubject_stopSubject, hf] at hc2
      have hcq : (c.id == q) = true := by
        have hf2 : s.subjects.find? (fun c2 => c2.id == q) = some c := hf
        simpa using List.find?_some hf2
      have hc3 : (if (c.id == q) = true
          then ({ c with stopped := true } : ChannelSubject) else c) = c2 :=
        Option.some.inj hc2
      rw [← hc3, hcq]
      rfl

theorem subjectComplete_eq_of_dead (s : JobState D V) (q : Nat)
    (h : deadAt s q) : subjectComplete s q = s := by
  unfold subjectComplete
  cases hf : findSubject s q with
  | none => rfl
  | some c =>
    dsimp only
    rw [h c hf]
    rfl

theorem mem_channels_subjectComplete (s : JobState D V) (q : Nat)
    (p : String × Nat) (hp : p ∈ (subjectComplete s q).channels) :
    p ∈ s.channels := by
  unfold subjectComplete at hp
  cases hf : findSubject s q with
  | none => rw [hf] at hp; exact hp
  | some c =>
    rw [hf] at hp
    dsimp only at hp
    by_cases hst : c.stopped = true
    · rw [if_pos hst] at hp; exact hp
    · rw [if_neg hst] at hp
      have hsub : ((deleteChannel
          (mainNext (stopSubject s q)
            (JobOutboundMessage.channelComplete s.description c.name))
          c.name).channels).Sublist s.channels := by
        simp only [deleteChannel]
        have := List.eraseP_sublist
          (l := (mainNext (stopSubject s q)
            (JobOutboundMessage.channelComplete s.description c.name)).channels)
          (p := fun p => p.1 == c.name)
        simpa using this
      exact hsub.mem hp

theorem completeAll_channels_dead (l : List (String × Nat)) :
    ∀ (s : JobState D V), (∀ p ∈ s.channels, p ∈ l ∨ deadAt s p.2) →
      ∀ p ∈ (completeAll s l).channels, deadAt (completeAll s l) p.2 := by
  induction l with
  | nil =>
    intro s h p hp
    rcases h p hp with h1 | h2
    · cases h1
    · exact h2
  | cons q tl ih =>
    intro s h
    have hnext : ∀ p ∈ (subjectComplete s q.2).channels,
        p ∈ tl ∨ deadAt (subjectComplete s q.2) p.2 := by
      intro p hp
      have hps := mem_channels_subjectComplete s q.2 p hp
      rcases h p hps with h1 | h2
      · rcases List.mem_cons.mp h1 with h3 | h3
        · rw [h3]
          exact Or.inr (deadAt_subjectComplete_self s q.2)
        · exact Or.inl h3
      · exact Or.inr (deadAt_mono_subjectComplete s q.2 p.2 h2)
    exact ih (subjectComplete s q.2) hnext

theorem completeAll_eq_of_dead (l : List (String × Nat)) :
    ∀ (s : JobState D V), (∀ p ∈ l, deadAt s p.2) → completeAll s l = s := by
  induction l with
  | nil => intro s h; rfl
  | cons q tl ih =>
    intro s h
    have h1 : subjectComplete s q.2 = s :=
      subjectComplete_eq_of_dead s q.2 (h q (List.mem_cons_self q tl))
    show completeAll (subjectComplete s q.2) tl = s
    rw [h1]
    exact ih s (fun p hp => h p (List.mem_cons_of_mem q hp))

theorem handleStop_term_isSome (s : JobState D V) : (handleStop s).term.isSome := by
  unfold handleStop
  rw [completeAll_term]
  cases ht : (mainNext ({ s with subActive := false } : JobState D V)
      (JobOutboundMessage.endMsg s.description)).term with
  | none => rw [mainComplete_term_open _ ht]; rfl
  | some t =>
    rw [mainComplete_frozen _ (by rw [ht]; rfl), ht]
    rfl

@[simp] theorem handleStop_subActive (s : JobState D V) :
    (handleStop s).subActive = false := by
  simp [handleStop]

theorem handleStop_channels_dead (s : JobState D V) :
    ∀ p ∈ (handleStop s).channels, deadAt (handleStop s) p.2 := by
  unfold handleStop
  exact completeAll_channels_dead _ _ (fun p hp => Or.inl hp)

theorem subActive_update_self (s : JobState D V) (h : s.subActive = false) :
    ({ s with subActive := false } : JobState D V) = s := by
  ext <;> simp [h]

theorem handleStop_of_closed (s : JobState D V) (hsub : s.subActive = false)
    (hterm : s.term.isSome) (hdead : ∀ p ∈ s.channels, deadAt s p.2) :
    handleStop s = s := by
  unfold handleStop
  rw [subActive_update_self s hsub, mainNext_frozen s _ hterm,
    mainComplete_frozen s hterm]
  exact completeAll_eq_of_dead _ s hdead

/-- The second Stop of a run is a no-op: it changes nothing in the run
state and delivers no second completion to any channel. -/
theorem handleStop_idem (s : JobState D V) :
    handleStop (handleStop s) = handleStop s :=
  handleStop_of_closed (handleStop s) (handleStop_subActive s)
    (handleStop_term_isSome s) (handleStop_channels_dead s)

/-- Stop on a still running state: End is appended, the stream completes. -/
theorem handleStop_open (s : JobState D V) (h : s.term = none) :
    (handleStop s).out = s.out ++ [JobOutboundMessage.endMsg s.description]
    ∧ (handleStop s).term = some Terminal.complete := by
  have h1 : ({ s with subActive := false } : JobState D V).term = none := h
  obtain ⟨ho, ht2⟩ := endComplete_open ({ s with subActive := false } : JobState D V)
    s.description h1
  have hsome : (mainComplete (mainNext ({ s with subActive := false } : JobState D V)
      (JobOutboundMessage.endMsg s.description))).term.isSome := by rw [ht2]; rfl
  unfold handleStop
  constructor
  · rw [completeAll_out_frozen _ _ hsome, ho]
  · rw [completeAll_term, ht2]

/-! The tap operator forwards the stream unchanged. -/

theorem tapNotifs_go {M L : Type} (ms : List M) (f : M → L)
    (acc : List M × List L) :
    (ms.foldl (fun acc m => (acc.1 ++ [m], acc.2 ++ [f m])) acc).1
      = acc.1 ++ ms := by
  induction ms generalizing acc with
  | nil => simp
  | cons m tl ih => simp [ih]

theorem tapNotifs_fst {M L : Type} (ms : List M) (f : M → L) :
    (tapNotifs ms f).1 = ms := by
  simpa [tapNotifs] using tapNotifs_go ms f ([], [])

/-! Single steps on an open running state. -/

theorem step_streamComplete_open (s : JobState D V) (h1 : s.term = none)
    (h2 : s.subActive = true) :
    (step s RunEvent.streamComplete).out
        = s.out ++ [JobOutboundMessage.endMsg s.description]
    ∧ (step s RunEvent.streamComplete).term = some Terminal.complete := by
  have hstep : step s RunEvent.streamComplete
      = mainComplete (mainNext ({ s with subActive := false } : JobState D V)
          (JobOutboundMessage.endMsg s.description)) := by
    simp [step, h2]
  have h1a : ({ s with subActive := false } : JobState D V).term = none := h1
  obtain ⟨ho, ht⟩ := endComplete_open ({ s with subActive := false } : JobState D V)
    s.description h1a
  rw [hstep]
  exact ⟨ho, ht⟩

theorem step_streamError_open (s : JobState D V) (e : V) (h1 : s.term = none)
    (h2 : s.subActive = true) :
    (step s (RunEvent.streamError e)).out = s.out
    ∧ (step s (RunEvent.streamError e)).term = some (Terminal.error e) := by
  have hstep : step s (RunEvent.streamError e)
      = mainError ({ s with subActive := false } : JobState D V) e := by
    simp [step, h2]
  have h1a : ({ s with subActive := false } : JobState D V).term = none := h1
  rw [hstep]
  exact ⟨mainError_out _ _, mainError_term_open _ _ h1a⟩

/-! Full runs of an observable job body with no channel or log activity. -/

theorem stream_error_then (s : JobState D V) (e : V) (rest : List (RunEvent V))
    (h1 : s.term = none) (h2 : s.subActive = true) :
    (rest.foldl step (step s (RunEvent.streamError e))).out = s.out
    ∧ (rest.foldl step (step s (RunEvent.streamError e))).term
        = some (Terminal.error e) := by
  obtain ⟨ho, ht⟩ := step_streamError_open s e h1 h2
  obtain ⟨fo, ft⟩ := foldl_frozen rest (step s (RunEvent.streamError e))
    (by simp [ht])
  exact ⟨fo.trans ho, ft.trans ht⟩

theorem run_stream_completes (d : D) (vs : List V) :
    (runJob d ⟨[], JobResult.observable⟩
        (vs.map RunEvent.streamNext ++ [RunEvent.streamComplete])).out
      = JobOutboundMessage.start d
          :: (vs.map (JobOutboundMessage.output d) ++ [JobOutboundMessage.endMsg d])
    ∧ (runJob d ⟨[], JobResult.observable⟩
        (vs.map RunEvent.streamNext ++ [RunEvent.streamComplete])).term
      = some Terminal.complete := by
  have h1 := stream_nexts vs (runInit d ⟨[], JobResult.observable⟩) rfl rfl
  have hsplit : runJob d ⟨[], JobResult.observable⟩
      (vs.map RunEvent.streamNext ++ [RunEvent.streamComplete])
        = step ((vs.map RunEvent.streamNext).foldl step
            (runInit d ⟨[], JobResult.observable⟩)) RunEvent.streamComplete := by
    simp [runJob, List.foldl_append]
  rw [hsplit, h1]
  refine ⟨(step_streamComplete_open _ rfl rfl).1.trans ?_,
    (step_streamComplete_open _ rfl rfl).2⟩
  rfl

theorem run_stream_errors (d : D) (vs : List V) (e : V) (rest : List (RunEvent V)) :
    (runJob d ⟨[], JobResult.observable⟩
        (vs.map RunEvent.streamNext ++ [RunEvent.streamError e] ++ rest)).out
      = JobOutboundMessage.start d :: vs.map (JobOutboundMessage.output d)
    ∧ (runJob d ⟨[], JobResult.observable⟩
        (vs.map RunEvent.streamNext ++ [RunEvent.streamError e] ++ rest)).term
      = some (Terminal.error e) := by
  have h1 := stream_nexts vs (runInit d ⟨[], JobResult.observable⟩) rfl rfl
  have hsplit : runJob d ⟨[], JobResult.observable⟩
      (vs.map RunEvent.streamNext ++ [RunEvent.streamError e] ++ rest)
        = rest.foldl step (step ((vs.map RunEvent.streamNext).foldl step
            (runInit d ⟨[], JobResult.observable⟩)) (RunEvent.streamError e)) := by
    simp [runJob, List.foldl_append]
  rw [hsplit, h1]
  refine ⟨(stream_error_then _ e rest rfl rfl).1.trans ?_,
    (stream_error_then _ e rest rfl rfl).2⟩
  rfl

theorem stop_then_stream_nexts (s : JobState D V) (ws : List V) :
    (ws.map RunEvent.streamNext).foldl step
        (step s (RunEvent.inbound JobInboundMessage.stop))
      = handleStop s :=
  stream_nexts_inactive ws (handleStop s) (handleStop_subActive s)

theorem endCount_outputs (d : D) (vs : List V) :
    endCount (vs.map (JobOutboundMessage.output d)) = 0 := by
  induction vs with
  | nil => rfl
  | cons v tl ih => simp [endCount, List.countP_cons, isEnd, ih]

/-! The claims. -/

/-- C1, counterexample: a scalar-returning body that opened channel c and
never completed it. The run reaches its natural terminal event (the End
message, with the stream completed), yet the channel is still in the open
set, its Subject is not stopped, and no ChannelComplete for it was
emitted: open channels are not force-completed at a natural terminal
event. -/
theorem claim_C1_cex :
    (runJob (0 : Nat) ⟨[RunEvent.chanCreate "c"], JobResult.scalar 7⟩
        ([] : List (RunEvent Nat))).term = some Terminal.complete
    ∧ (runJob (0 : Nat) ⟨[RunEvent.chanCreate "c"], JobResult.scalar 7⟩
        ([] : List (RunEvent Nat))).channels = [("c", 0)]
    ∧ (runJob (0 : Nat) ⟨[RunEvent.chanCreate "c"], JobResult.scalar 7⟩
        ([] : List (RunEvent Nat))).subjects = [⟨0, "c", false⟩]
    ∧ JobOutboundMessage.channelComplete 0 "c"
        ∉ (runJob (0 : Nat) ⟨[RunEvent.chanCreate "c"], JobResult.scalar 7⟩
            ([] : List (RunEvent Nat))).out := by
  refine ⟨rfl, rfl, rfl, ?_⟩
  decide

/-- C1 (amended): in every run exactly one Start message is emitted and it
comes before every other message; once a terminal event has occurred
(normal completion or failure) no further message is emitted on the
primary stream and the terminal state never changes, so at most one
terminal event occurs. Channels still open at a natural terminal event are
left open; only Stop force-completes them. -/
theorem claim_C1_amended (d : D) (b : JobBody V) (tr ext : List (RunEvent V)) :
    (∃ rest, (runJob d b tr).out = JobOutboundMessage.start d :: rest
        ∧ startCount rest = 0)
  ∧ ((runJob d b tr).term.isSome →
      (runJob d b (tr ++ ext)).out = (runJob d b tr).out
        ∧ (runJob d b (tr ++ ext)).term = (runJob d b tr).term) := by
  refine ⟨runJob_out_start d b tr, fun h => ?_⟩
  have hs : runJob d b (tr ++ ext) = ext.foldl step (runJob d b tr) := by
    simp [runJob, List.foldl_append]
  rw [hs]
  exact foldl_frozen ext _ h

/-- C1 (amended) witness at a concrete terminated run. -/
theorem claim_C1_amended_witness :
    (∃ rest, (runJob (0 : Nat) ⟨[], JobResult.scalar 2⟩
        ([] : List (RunEvent Nat))).out
          = JobOutboundMessage.start 0 :: rest ∧ startCount rest = 0)
  ∧ ((runJob (0 : Nat) ⟨[], JobResult.scalar 2⟩
        (([] : List (RunEvent Nat))
          ++ [RunEvent.inbound (JobInboundMessage.ping 3)])).out
      = (runJob (0 : Nat) ⟨[], JobResult.scalar 2⟩ ([] : List (RunEvent Nat))).out
    ∧ (runJob (0 : Nat) ⟨[], JobResult.scalar 2⟩
        (([] : List (RunEvent Nat))
          ++ [RunEvent.inbound (JobInboundMessage.ping 3)])).term
      = (runJob (0 : Nat) ⟨[], JobResult.scalar 2⟩
          ([] : List (RunEvent Nat))).term) := by
  have h := claim_C1_amended (0 : Nat) ⟨[], JobResult.scalar 2⟩
    ([] : List (RunEvent Nat)) [RunEvent.inbound (JobInboundMessage.ping 3)]
  exact ⟨h.1, h.2 rfl⟩

/-- C2: a job body returning a scalar value v, with no channel or log
activity and no inbound traffic, yields exactly Start, Output v, End and
the stream completes successfully. -/
theorem claim_C2 (d : D) (v : V) :
    (runJob d ⟨[], JobResult.scalar v⟩ ([] : List (RunEvent V))).out
        = [JobOutboundMessage.start d, JobOutboundMessage.output d v,
           JobOutboundMessage.endMsg d]
    ∧ (runJob d ⟨[], JobResult.scalar v⟩ ([] : List (RunEvent V))).term
        = some Terminal.complete :=
  ⟨rfl, rfl⟩

/-- C3: a job body returning a promise. On resolution with v the outbound
sequence is Start, Output v, End with successful completion; on rejection
with e the sequence is just Start followed by a stream failure carrying e,
and no End message is ever emitted afterwards whatever else happens. -/
theorem claim_C3 (d : D) (v e : V) (rest : List (RunEvent V)) :
    ((runJob d ⟨[], JobResult.promise⟩ [RunEvent.promiseResolve v]).out
        = [JobOutboundMessage.start d, JobOutboundMessage.output d v,
           JobOutboundMessage.endMsg d]
      ∧ (runJob d ⟨[], JobResult.promise⟩ [RunEvent.promiseResolve v]).term
        = some Terminal.complete)
  ∧ ((runJob d ⟨[], JobResult.promise⟩ (RunEvent.promiseReject e :: rest)).out
        = [JobOutboundMessage.start d]
      ∧ (runJob d ⟨[], JobResult.promise⟩ (RunEvent.promiseReject e :: rest)).term
        = some (Terminal.error e)
      ∧ endCount (runJob d ⟨[], JobResult.promise⟩
          (RunEvent.promiseReject e :: rest)).out = 0) := by
  refine ⟨⟨rfl, rfl⟩, ?_, ?_, ?_⟩
  · exact (foldl_frozen rest (step (runInit d ⟨[], JobResult.promise⟩)
      (RunEvent.promiseReject e)) rfl).1.trans rfl
  · exact (foldl_frozen rest (step (runInit d ⟨[], JobResult.promise⟩)
      (RunEvent.promiseReject e)) rfl).2.trans rfl
  · have ho : (runJob d ⟨[], JobResult.promise⟩
        (RunEvent.promiseReject e :: rest)).out = [JobOutboundMessage.start d] :=
      (foldl_frozen rest (step (runInit d ⟨[], JobResult.promise⟩)
        (RunEvent.promiseReject e)) rfl).1.trans rfl
    rw [ho]
    exact endCount_singleton _ rfl

/-- C4: a job body returning a stream. If the stream emits v1 ... vn and
completes, the outbound sequence is Start, the Outputs in emission order,
End, with successful completion; if it errors with e, the outbound stream
fails with e after the Outputs emitted so far and no End is emitted. -/
theorem claim_C4 (d : D) (vs : List V) (e : V) (rest : List (RunEvent V)) :
    ((runJob d ⟨[], JobResult.observable⟩
        (vs.map RunEvent.streamNext ++ [RunEvent.streamComplete])).out
      = JobOutboundMessage.start d
          :: (vs.map (JobOutboundMessage.output d) ++ [JobOutboundMessage.endMsg d])
    ∧ (runJob d ⟨[], JobResult.observable⟩
        (vs.map RunEvent.streamNext ++ [RunEvent.streamComplete])).term
      = some Terminal.complete)
  ∧ ((runJob d ⟨[], JobResult.observable⟩
        (vs.map RunEvent.streamNext ++ [RunEvent.streamError e] ++ rest)).out
      = JobOutboundMessage.start d :: vs.map (JobOutboundMessage.output d)
    ∧ (runJob d ⟨[], JobResult.observable⟩
        (vs.map RunEvent.streamNext ++ [RunEvent.streamError e] ++ rest)).term
      = some (Terminal.error e)
    ∧ endCount (runJob d ⟨[], JobResult.observable⟩
        (vs.map RunEvent.streamNext ++ [RunEvent.streamError e] ++ rest)).out
      = 0) := by
  refine ⟨run_stream_completes d vs, ?_⟩
  obtain ⟨ho, ht⟩ := run_stream_errors d vs e rest
  refine ⟨ho, ht, ?_⟩
  rw [ho]
  have h2 := endCount_outputs d vs
  simp [endCount, List.countP_cons, isEnd, h2]

/-- C5, counterexample: a stream job with open channel c, stopped after 2
of 5 values. The outbound sequence is Start, Output 1, Output 2, End: the
later values never appear, but no ChannelComplete for c is emitted at all,
and in particular none before the End message, because the source
completes the channels only after subject.complete() has closed the
primary stream. -/
theorem claim_C5_cex :
    (runJob (0 : Nat) ⟨[RunEvent.chanCreate "c"], JobResult.observable⟩
        [RunEvent.streamNext 1, RunEvent.streamNext 2,
         RunEvent.inbound JobInboundMessage.stop,
         RunEvent.streamNext 3, RunEvent.streamNext 4, RunEvent.streamNext 5]).out
      = [JobOutboundMessage.start 0, JobOutboundMessage.output 0 1,
         JobOutboundMessage.output 0 2, JobOutboundMessage.endMsg 0]
    ∧ JobOutboundMessage.channelComplete 0 "c"
        ∉ (runJob (0 : Nat) ⟨[RunEvent.chanCreate "c"], JobResult.observable⟩
            [RunEvent.streamNext 1, RunEvent.streamNext 2,
             RunEvent.inbound JobInboundMessage.stop,
             RunEvent.streamNext 3, RunEvent.streamNext 4,
             RunEvent.streamNext 5]).out := by
  refine ⟨by decide, by decide⟩

/-- C5 (amended): when Stop arrives while a stream result is in flight, the
outbound sequence ends with End immediately after the Outputs already
emitted, none of the later stream values ever appears, and every open
channel is force-completed (its Subject is stopped and it leaves the open
set), but the resulting ChannelComplete messages are suppressed because
the primary stream is already complete, so no ChannelComplete appears on
the outbound stream. -/
theorem claim_C5_amended (d : D) (vs ws : List V) :
    (runJob d ⟨[RunEvent.chanCreate "c"], JobResult.observable⟩
        (vs.map RunEvent.streamNext ++ [RunEvent.inbound JobInboundMessage.stop]
          ++ ws.map RunEvent.streamNext)).out
      = JobOutboundMessage.start d
          :: (vs.map (JobOutboundMessage.output d) ++ [JobOutboundMessage.endMsg d])
    ∧ (runJob d ⟨[RunEvent.chanCreate "c"], JobResult.observable⟩
        (vs.map RunEvent.streamNext ++ [RunEvent.inbound JobInboundMessage.stop]
          ++ ws.map RunEvent.streamNext)).term = some Terminal.complete
    ∧ (runJob d ⟨[RunEvent.chanCreate "c"], JobResult.observable⟩
        (vs.map RunEvent.streamNext ++ [RunEvent.inbound JobInboundMessage.stop]
          ++ ws.map RunEvent.streamNext)).channels = []
    ∧ (runJob d ⟨[RunEvent.chanCreate "c"], JobResult.observable⟩
        (vs.map RunEvent.streamNext ++ [RunEvent.inbound JobInboundMessage.stop]
          ++ ws.map RunEvent.streamNext)).subjects = [⟨0, "c", true⟩] := by
  have h1 := stream_nexts vs
    (runInit d ⟨[RunEvent.chanCreate "c"], JobResult.observable⟩) rfl rfl
  have hsplit : runJob d ⟨[RunEvent.chanCreate "c"], JobResult.observable⟩
      (vs.map RunEvent.streamNext ++ [RunEvent.inbound JobInboundMessage.stop]
        ++ ws.map RunEvent.streamNext)
      = (ws.map RunEvent.streamNext).foldl step
          (step ((vs.map RunEvent.streamNext).foldl step
            (runInit d ⟨[RunEvent.chanCreate "c"], JobResult.observable⟩))
            (RunEvent.inbound JobInboundMessage.stop)) := by
    simp [runJob, List.foldl_append]
  rw [hsplit, stop_then_stream_nexts, h1]
  exact ⟨(handleStop_open _ rfl).1.trans rfl, (handleStop_open _ rfl).2, rfl, rfl⟩

/-- C6, counterexample: with channel c open, two Stop messages yield the
outbound sequence Start, End: exactly one End, but zero ChannelComplete
messages for the open channel, not exactly one. -/
theorem claim_C6_cex :
    (runJob (0 : Nat) ⟨[RunEvent.chanCreate "c"], JobResult.observable⟩
        ([] : List (RunEvent Nat))).channels = [("c", 0)]
    ∧ (runJob (0 : Nat) ⟨[RunEvent.chanCreate "c"], JobResult.observable⟩
        ([RunEvent.inbound JobInboundMessage.stop,
          RunEvent.inbound JobInboundMessage.stop] : List (RunEvent Nat))).out
      = [JobOutboundMessage.start 0, JobOutboundMessage.endMsg 0]
    ∧ JobOutboundMessage.channelComplete 0 "c"
        ∉ (runJob (0 : Nat) ⟨[RunEvent.chanCreate "c"], JobResult.observable⟩
            ([RunEvent.inbound JobInboundMessage.stop,
              RunEvent.inbound JobInboundMessage.stop] : List (RunEvent Nat))).out := by
  refine ⟨by decide, by decide, by decide⟩

/-- C6 (amended): a Stop on a live run appends exactly one End message; a
second Stop is a complete no-op, the whole run state is unchanged, so no
channel receives a second completion and the total number of End messages
is exactly one. The ChannelComplete messages of the force-completed
channels are suppressed, because the primary stream completes before the
channels are closed. -/
theorem claim_C6_amended (d : D) (b : JobBody V) (pre : List (RunEvent V))
    (h : (runJob d b pre).term = none) :
    (runJob d b (pre ++ [RunEvent.inbound JobInboundMessage.stop])).out
        = (runJob d b pre).out ++ [JobOutboundMessage.endMsg d]
    ∧ runJob d b (pre ++ [RunEvent.inbound JobInboundMessage.stop,
        RunEvent.inbound JobInboundMessage.stop])
      = runJob d b (pre ++ [RunEvent.inbound JobInboundMessage.stop])
    ∧ endCount (runJob d b (pre ++ [RunEvent.inbound JobInboundMessage.stop,
        RunEvent.inbound JobInboundMessage.stop])).out = 1 := by
  have hs1 : runJob d b (pre ++ [RunEvent.inbound JobInboundMessage.stop])
      = handleStop (runJob d b pre) := by
    simp only [runJob, List.foldl_append, List.foldl_cons, List.foldl_nil]
    rfl
  have hs2 : runJob d b (pre ++ [RunEvent.inbound JobInboundMessage.stop,
      RunEvent.inbound JobInboundMessage.stop])
      = handleStop (handleStop (runJob d b pre)) := by
    simp only [runJob, List.foldl_append, List.foldl_cons, List.foldl_nil]
    rfl
  obtain ⟨ho, ht⟩ := handleStop_open (runJob d b pre) h
  refine ⟨?_, ?_, ?_⟩
  · rw [hs1, ho, runJob_description]
  · rw [hs1, hs2, handleStop_idem]
  · rw [hs2, handleStop_idem, ← hs1]
    rw [runJob_endInv d b (pre ++ [RunEvent.inbound JobInboundMessage.stop]),
      hs1, ht]
    rfl

/-- C6 (amended) witness at a concrete live run. -/
theorem claim_C6_amended_witness :
    (runJob (0 : Nat) ⟨[], JobResult.observable⟩
        (([] : List (RunEvent Nat)) ++ [RunEvent.inbound JobInboundMessage.stop])).out
      = (runJob (0 : Nat) ⟨[], JobResult.observable⟩ ([] : List (RunEvent Nat))).out
        ++ [JobOutboundMessage.endMsg 0]
    ∧ runJob (0 : Nat) ⟨[], JobResult.observable⟩
        (([] : List (RunEvent Nat)) ++ [RunEvent.inbound JobInboundMessage.stop,
          RunEvent.inbound JobInboundMessage.stop])
      = runJob (0 : Nat) ⟨[], JobResult.observable⟩
          (([] : List (RunEvent Nat)) ++ [RunEvent.inbound JobInboundMessage.stop])
    ∧ endCount (runJob (0 : Nat) ⟨[], JobResult.observable⟩
        (([] : List (RunEvent Nat)) ++ [RunEvent.inbound JobInboundMessage.stop,
          RunEvent.inbound JobInboundMessage.stop])).out = 1 :=
  claim_C6_amended 0 ⟨[], JobResult.observable⟩ [] rfl

/-- C7: while channel c is open, createChannel c fails synchronously at the
call site with ChannelAlreadyExistException carrying the name, and nothing
is emitted for it on the outbound stream; pushing m1 then m2 through the
channel handle and completing it emits exactly ChannelMessage c m1,
ChannelMessage c m2, ChannelComplete c in that order, removes c from the
open set, and afterwards createChannel c succeeds again. -/
theorem claim_C7 (d : D) (m1 m2 : V) :
    ∃ s1 : JobState D V,
      createChannel (runJob d ⟨[], JobResult.observable⟩
          ([] : List (RunEvent V))) "c" = Except.ok (s1, 0)
      ∧ createChannel s1 "c" = Except.error ⟨"c"⟩
      ∧ s1.out = [JobOutboundMessage.start d]
      ∧ ([RunEvent.chanNext 0 m1, RunEvent.chanNext 0 m2,
           RunEvent.chanComplete 0].foldl step s1).out
          = [JobOutboundMessage.start d,
             JobOutboundMessage.channelMessage d "c" m1,
             JobOutboundMessage.channelMessage d "c" m2,
             JobOutboundMessage.channelComplete d "c"]
      ∧ ([RunEvent.chanNext 0 m1, RunEvent.chanNext 0 m2,
           RunEvent.chanComplete 0].foldl step s1).channels = []
      ∧ ∃ s3 : JobState D V,
          createChannel ([RunEvent.chanNext 0 m1, RunEvent.chanNext 0 m2,
            RunEvent.chanComplete 0].foldl step s1) "c" = Except.ok (s3, 1) :=
  ⟨_, rfl, rfl, rfl, rfl, rfl, _, rfl⟩

/-- C8: a Ping processed while the run has not yet terminated appends
exactly one Pong carrying the same id and the description of the job; a
Ping processed after the terminal event appends nothing at all. -/
theorem claim_C8 (d : D) (b : JobBody V) (pre : List (RunEvent V)) (i : Nat) :
    ((runJob d b pre).term = none →
      (runJob d b (pre ++ [RunEvent.inbound (JobInboundMessage.ping i)])).out
        = (runJob d b pre).out ++ [JobOutboundMessage.pong d i])
  ∧ ((runJob d b pre).term.isSome →
      (runJob d b (pre ++ [RunEvent.inbound (JobInboundMessage.ping i)])).out
        = (runJob d b pre).out) := by
  have hs : runJob d b (pre ++ [RunEvent.inbound (JobInboundMessage.ping i)])
      = mainNext (runJob d b pre)
          (JobOutboundMessage.pong (runJob d b pre).description i) := by
    simp only [runJob, List.foldl_append, List.foldl_cons, List.foldl_nil]
    rfl
  constructor
  · intro h
    rw [hs, mainNext_out_open _ _ h, runJob_description]
  · intro h
    rw [hs, mainNext_frozen _ _ h]

/-- C8 witness: a Ping on a live run and on a terminated run. -/
theorem claim_C8_witness :
    (runJob (0 : Nat) ⟨[], JobResult.observable⟩
        (([] : List (RunEvent Nat))
          ++ [RunEvent.inbound (JobInboundMessage.ping 7)])).out
      = (runJob (0 : Nat) ⟨[], JobResult.observable⟩ ([] : List (RunEvent Nat))).out
        ++ [JobOutboundMessage.pong 0 7]
    ∧ (runJob (0 : Nat) ⟨[], JobResult.scalar 1⟩
        (([] : List (RunEvent Nat))
          ++ [RunEvent.inbound (JobInboundMessage.ping 7)])).out
      = (runJob (0 : Nat) ⟨[], JobResult.scalar 1⟩
          ([] : List (RunEvent Nat))).out :=
  ⟨(claim_C8 0 ⟨[], JobResult.observable⟩ [] 7).1 rfl,
   (claim_C8 0 ⟨[], JobResult.scalar 1⟩ [] 7).2 rfl⟩

/-- C9: the handler returned by createLoggerJob produces exactly the
outbound messages and the terminal state of the wrapped handler, for every
argument, description and run trace: the tap logging does not alter the
protocol behavior. -/
theorem claim_C9 (job : JobHandlerModel D V) (a : V) (d : D)
    (tr : List (RunEvent V)) :
    (createLoggerJobModel job).run a d tr = job.run a d tr := by
  show ((tapNotifs (job.run a d tr).1 LogLine.messageLine).1, (job.run a d tr).2)
      = job.run a d tr
  rw [tapNotifs_fst]

/-- C10: createJobHandler and createJobFactory put the supplied options on
the returned handler as jobDescription, the empty property list when
createJobHandler gets no options, while createLoggerJob copies the wrapped
handler properties, exposing the wrapped jobDescription. -/
theorem claim_C10 (fn : V → JobBody V) (options : List (String × String))
    (loader : Unit → JobHandlerModel D V) (job : JobHandlerModel D V) :
    (createJobHandlerModel fn options : JobHandlerModel D V).jobDescription
        = options
    ∧ (createJobHandlerModelNoOptions fn : JobHandlerModel D V).jobDescription
        = []
    ∧ (createJobFactoryModel loader options).jobDescription = options
    ∧ (createLoggerJobModel job).jobDescription = job.jobDescription :=
  ⟨rfl, rfl, rfl, rfl⟩

end Jobs
